import Mathlib

/-!
Verification of the Budget Enforcement & Cost-Attribution Ledger extracted from
the demo scripts (demo_complete.py and demo_proxy.py).  Monetary amounts are
modelled as exact rationals (ℚ); token counts are modelled as integers (ℤ),
matching Python's unbounded ints; the per-user and per-team tables are modelled
as insertion-ordered association lists, matching Python dict semantics.
-/

namespace AG

/-- One entry of the `user_budgets` table: spending limit, cumulative spend and
team name. -/
structure Budget where
  limit : ℚ
  spent : ℚ
  team : String
deriving DecidableEq

/-- The initial `user_budgets` table from demo_complete.py (lines 62-71). -/
def user_budgets : String → Option Budget := fun u =>
  if u = "alice" then some ⟨5/100, 0, "engineering"⟩
  else if u = "bob" then some ⟨10/100, 0, "engineering"⟩
  else if u = "charlie" then some ⟨2/100, 0, "product"⟩
  else if u = "diana" then some ⟨8/100, 0, "marketing"⟩
  else if u = "evan" then some ⟨6/100, 0, "marketing"⟩
  else if u = "frank" then some ⟨15/100, 0, "sales"⟩
  else if u = "grace" then some ⟨7/100, 0, "data-science"⟩
  else if u = "henry" then some ⟨5/100, 0, "customer-support"⟩
  else none

/-- Left-pad the fractional part to four digits, as a `%04d`-style rendering. -/
def pad4 (n : ℕ) : String :=
  if n < 10 then "000" ++ toString n
  else if n < 100 then "00" ++ toString n
  else if n < 1000 then "0" ++ toString n
  else toString n

/-- Model of Python's fixed-point formatting `:.4f`: round to four decimal
places and render with exactly four fractional digits. -/
def fmt4 (q : ℚ) : String :=
  let n : ℤ := round (q * 10000)
  let sign := if n < 0 then "-" else ""
  sign ++ toString (n.natAbs / 10000) ++ "." ++ pad4 (n.natAbs % 10000)

/-- The denial reason built in check_budget (demo_complete.py line 100). -/
def budgetReason (limit spent : ℚ) : String :=
  "Budget exceeded. Limit: $" ++ fmt4 limit ++ ", Spent: $" ++ fmt4 spent

/-- check_budget (demo_complete.py lines 92-102): pure admission check against
the budget table.  Returns (allowed, reason). -/
def check_budget (budgets : String → Option Budget) (user_id : String)
    (estimated_cost : ℚ) : Bool × String :=
  match budgets user_id with
  | none => (true, "")
  | some user =>
    if user.spent + estimated_cost > user.limit then
      (false, budgetReason user.limit user.spent)
    else
      (true, "")

/-- update_budget (demo_complete.py lines 104-107): add `cost` to the user's
spend when the user is present in the table; otherwise do nothing. -/
def update_budget (budgets : String → Option Budget) (user_id : String)
    (cost : ℚ) : String → Option Budget :=
  fun u =>
    if u = user_id then
      (budgets user_id).map (fun b => { b with spent := b.spent + cost })
    else
      budgets u

/-- A pricing-table entry: cost per input token and cost per output token. -/
structure PricingEntry where
  input : ℚ
  output : ℚ
deriving DecidableEq

/-- ANTHROPIC_PRICING (demo_complete.py lines 39-42). -/
def ANTHROPIC_PRICING : PricingEntry :=
  ⟨(80/100) / 1000000, 4 / 1000000⟩

/-- OPENAI_PRICING (demo_complete.py lines 45-50). -/
def OPENAI_PRICING : List (String × PricingEntry) :=
  [("gpt-4o-mini", ⟨(15/100) / 1000000, (60/100) / 1000000⟩)]

/-- GROK_PRICING (demo_complete.py lines 54-59). -/
def GROK_PRICING : List (String × PricingEntry) :=
  [("grok-4-fast-reasoning", ⟨2 / 1000000, 10 / 1000000⟩)]

/-- PRICING (demo_proxy.py lines 23-28). -/
def PRICING : List (String × PricingEntry) :=
  [("claude-haiku-4-5-20251001", ⟨(80/100) / 1000000, 4 / 1000000⟩)]

/-- calculate_anthropic_cost (demo_complete.py lines 109-112). -/
def calculate_anthropic_cost (input_tokens output_tokens : ℤ) : ℚ :=
  input_tokens * ANTHROPIC_PRICING.input + output_tokens * ANTHROPIC_PRICING.output

/-- calculate_openai_cost (demo_complete.py lines 114-118): unknown models fall
back to the "gpt-4o-mini" entry. -/
def calculate_openai_cost (input_tokens output_tokens : ℤ) (model : String) : ℚ :=
  let pricing := (OPENAI_PRICING.lookup model).getD ⟨(15/100) / 1000000, (60/100) / 1000000⟩
  input_tokens * pricing.input + output_tokens * pricing.output

/-- calculate_grok_cost (demo_complete.py lines 120-124): unknown models fall
back to the "grok-4-fast-reasoning" entry. -/
def calculate_grok_cost (input_tokens output_tokens : ℤ) (model : String) : ℚ :=
  let pricing := (GROK_PRICING.lookup model).getD ⟨2 / 1000000, 10 / 1000000⟩
  input_tokens * pricing.input + output_tokens * pricing.output

/-- calculate_cost (demo_proxy.py lines 124-129): unknown models fall back to
the "claude-haiku-4-5-20251001" entry. -/
def calculate_cost (input_tokens output_tokens : ℤ) (model : String) : ℚ :=
  let pricing := (PRICING.lookup model).getD ⟨(80/100) / 1000000, 4 / 1000000⟩
  input_tokens * pricing.input + output_tokens * pricing.output

/-- Error taxonomy of the cost calculator. -/
inductive CalcError where
  | UnknownProvider
deriving DecidableEq

/-- Modelled from the spec: the source has one hard-coded cost function per
provider (calculate_anthropic_cost, calculate_openai_cost, calculate_grok_cost)
and no single dispatcher keyed by a provider string; the spec's Cost Calculator
contract takes a provider key and reports `UnknownProvider` for a provider
absent from the pricing table.  This definition adds only that dispatch,
delegating to the per-provider functions embedded from the source. -/
def calcCost (provider model : String) (input_tokens output_tokens : ℤ) :
    Except CalcError ℚ :=
  if provider = "anthropic" then
    .ok (calculate_anthropic_cost input_tokens output_tokens)
  else if provider = "openai" then
    .ok (calculate_openai_cost input_tokens output_tokens model)
  else if provider = "grok" then
    .ok (calculate_grok_cost input_tokens output_tokens model)
  else
    .error .UnknownProvider

/-- One record of the append-only requests log (demo_complete.py lines
199-207). -/
structure UsageRecord where
  timestamp : ℕ
  user_id : String
  team_id : String
  input_tokens : ℤ
  output_tokens : ℤ
  cost : ℚ
  elapsed_time : ℚ
deriving DecidableEq

/-- One per-user aggregate of cost_tracker["by_user"] (demo_complete.py line
76). -/
structure UserStats where
  requests : ℕ
  input_tokens : ℤ
  output_tokens : ℤ
  cost : ℚ
deriving DecidableEq

/-- The defaultdict default for by_user entries. -/
def userStatsDefault : UserStats := ⟨0, 0, 0, 0⟩

/-- The cost_tracker global (demo_complete.py lines 74-78): the requests log,
the per-user aggregates (an insertion-ordered dict) and the running total. -/
structure CostTracker where
  requests : List UsageRecord
  by_user : List (String × UserStats)
  total_cost : ℚ
deriving DecidableEq

/-- The initial, empty cost_tracker. -/
def emptyCostTracker : CostTracker := ⟨[], [], 0⟩

/-- Python's `x or d` on an optional string: `None` and the empty string both
give the default `d`. -/
def pyOr (s : Option String) (d : String) : String :=
  match s with
  | none => d
  | some v => if v = "" then d else v

/-- Defaultdict update of the by_user table: bump the entry for key `k` (the
first occurrence), creating it at the end (dict insertion order) if absent. -/
def bumpUser (l : List (String × UserStats)) (k : String) (it ot : ℤ)
    (c : ℚ) : List (String × UserStats) :=
  match l with
  | [] => [(k, ⟨1, it, ot, c⟩)]
  | (k', s) :: rest =>
    if k' = k then
      (k', ⟨s.requests + 1, s.input_tokens + it, s.output_tokens + ot, s.cost + c⟩) :: rest
    else
      (k', s) :: bumpUser rest k it ot c

/-- First-match lookup in the by_user table. -/
def lookupUser (l : List (String × UserStats)) (k : String) : Option UserStats :=
  match l with
  | [] => none
  | (k', s) :: rest => if k' = k then some s else lookupUser rest k

/-- track_request (demo_complete.py lines 197-216); identical inline logic in
demo_proxy.py send_message (lines 86-103).  Appends one UsageRecord and updates
the per-user aggregate and the running total.  The timestamp is the ambient
clock value (datetime.now()), passed in as `ts`. -/
def track_request (t : CostTracker) (ts : ℕ) (user_id team_id : Option String)
    (input_tokens output_tokens : ℤ) (cost elapsed_time : ℚ) : CostTracker :=
  let r : UsageRecord :=
    ⟨ts, pyOr user_id "anonymous", pyOr team_id "none",
      input_tokens, output_tokens, cost, elapsed_time⟩
  { requests := t.requests ++ [r]
    by_user := bumpUser t.by_user (pyOr user_id "anonymous") input_tokens output_tokens cost
    total_cost := t.total_cost + cost }

/-- One per-team aggregate of the chargeback report (demo_complete.py line
772): summed cost and request count. -/
structure TeamStats where
  cost : ℚ
  requests : ℕ
deriving DecidableEq

/-- Defaultdict update of the team_costs table (demo_complete.py lines
773-776). -/
def bumpTeam (l : List (String × TeamStats)) (k : String) (c : ℚ) :
    List (String × TeamStats) :=
  match l with
  | [] => [(k, ⟨c, 1⟩)]
  | (k', s) :: rest =>
    if k' = k then
      (k', ⟨s.cost + c, s.requests + 1⟩) :: rest
    else
      (k', s) :: bumpTeam rest k c

/-- First-match lookup in the team_costs table. -/
def lookupTeam (l : List (String × TeamStats)) (k : String) : Option TeamStats :=
  match l with
  | [] => none
  | (k', s) :: rest => if k' = k then some s else lookupTeam rest k

/-- team_costs (demo_complete.py lines 772-776): the per-team aggregates
recomputed from the requests log, in order of first appearance of each team. -/
def team_costs (reqs : List UsageRecord) : List (String × TeamStats) :=
  reqs.foldl (fun acc r => bumpTeam acc r.team_id r.cost) []

/-- The ordering used by `sorted(..., key=cost, reverse=True)`: `a` may come
before `b` when `b`'s cost key is at most `a`'s. -/
def costGe {α : Type} (key : α → ℚ) (a b : α) : Prop := key b ≤ key a

instance {α : Type} (key : α → ℚ) : DecidableRel (costGe key) :=
  fun a b => (show Decidable (key b ≤ key a) from inferInstance)

instance {α : Type} (key : α → ℚ) : IsTotal α (costGe key) :=
  ⟨fun a b => le_total (key b) (key a)⟩

instance {α : Type} (key : α → ℚ) : IsTrans α (costGe key) :=
  ⟨fun _ _ _ hab hbc => le_trans hbc hab⟩

/-- The cost key of a per-user table entry. -/
def userCost (p : String × UserStats) : ℚ := p.2.cost

/-- The cost key of a per-team table entry. -/
def teamCost (p : String × TeamStats) : ℚ := p.2.cost

/-- sorted_users (demo_complete.py lines 753-757): the by_user table sorted by
descending cost with Python's stable sort, modelled by stable insertion sort. -/
def sorted_users (t : CostTracker) : List (String × UserStats) :=
  List.insertionSort (costGe userCost) t.by_user

/-- sorted_teams (demo_complete.py lines 785-789): the recomputed team_costs
table sorted by descending cost with Python's stable sort. -/
def sorted_teams (t : CostTracker) : List (String × TeamStats) :=
  List.insertionSort (costGe teamCost) (team_costs t.requests)

/-- The whole mutable state of the core: the budget ledger and the usage
recorder. -/
structure SysState where
  budgets : String → Option Budget
  tracker : CostTracker

/-- The operations of the core. -/
inductive Op where
  | check (user_id : String) (estimated_cost : ℚ)
  | commit (user_id : String) (cost : ℚ)
  | record (ts : ℕ) (user_id team_id : Option String)
      (input_tokens output_tokens : ℤ) (cost elapsed_time : ℚ)

/-- State transition of one operation: check_budget reads but never writes;
commit runs update_budget; record runs track_request. -/
def step (s : SysState) (op : Op) : SysState :=
  match op with
  | .check _ _ => s
  | .commit u c => { s with budgets := update_budget s.budgets u c }
  | .record ts u tm it ot c e =>
      { s with tracker := track_request s.tracker ts u tm it ot c e }

/-- Run a sequence of operations. -/
def runOps (s : SysState) (ops : List Op) : SysState := ops.foldl step s

/-- The arguments of one Record call. -/
structure RecordCall where
  ts : ℕ
  user_id : Option String
  team_id : Option String
  input_tokens : ℤ
  output_tokens : ℤ
  cost : ℚ
  elapsed_time : ℚ

/-- Run a sequence of Record calls against a cost tracker. -/
def applyRecords (t : CostTracker) (calls : List RecordCall) : CostTracker :=
  calls.foldl
    (fun t c =>
      track_request t c.ts c.user_id c.team_id c.input_tokens c.output_tokens
        c.cost c.elapsed_time) t

/-- The cumulative spend a state records for a principal (0 when unknown). -/
def spentOf (s : SysState) (u : String) : ℚ :=
  match s.budgets u with
  | some b => b.spent
  | none => 0

/-- An operation whose committed cost (if it is a commit) is non-negative. -/
def nonNegCommit (op : Op) : Prop :=
  match op with
  | .commit _ c => 0 ≤ c
  | _ => True

/-- The initial process state: the source budget table and an empty tracker. -/
def state0 : SysState := ⟨user_budgets, emptyCostTracker⟩

/-- The Scenario C record sequence: engineering records (alice 0.01, bob 0.02)
followed by marketing (diana 0.03), as in the cost-tracking demo. -/
def scenarioC_tracker : CostTracker :=
  applyRecords emptyCostTracker
    [⟨0, some "alice", some "engineering", 100, 50, 1/100, 1⟩,
     ⟨1, some "bob", some "engineering", 100, 50, 2/100, 1⟩,
     ⟨2, some "diana", some "marketing", 100, 50, 3/100, 1⟩]

/-- Two equal-cost records whose insertion order ("bob" first) disagrees with
identifier-ascending order. -/
def tieTracker : CostTracker :=
  applyRecords emptyCostTracker
    [⟨0, some "bob", none, 10, 10, 1/100, 1⟩,
     ⟨1, some "alice", none, 10, 10, 1/100, 1⟩]

/-! ## Helper lemmas -/

theorem sum_cost_bumpUser (l : List (String × UserStats)) (k : String)
    (it ot : ℤ) (c : ℚ) :
    ((bumpUser l k it ot c).map (fun p => p.2.cost)).sum
      = (l.map (fun p => p.2.cost)).sum + c := by
  induction l with
  | nil => simp [bumpUser]
  | cons hd tl ih =>
    obtain ⟨k', s⟩ := hd
    by_cases h : k' = k <;> simp [bumpUser, h, ih] <;> ring

theorem sum_requests_bumpUser (l : List (String × UserStats)) (k : String)
    (it ot : ℤ) (c : ℚ) :
    ((bumpUser l k it ot c).map (fun p => p.2.requests)).sum
      = (l.map (fun p => p.2.requests)).sum + 1 := by
  induction l with
  | nil => simp [bumpUser]
  | cons hd tl ih =>
    obtain ⟨k', s⟩ := hd
    by_cases h : k' = k <;> simp [bumpUser, h, ih] <;> ring

theorem sum_cost_bumpTeam (l : List (String × TeamStats)) (k : String) (c : ℚ) :
    ((bumpTeam l k c).map (fun p => p.2.cost)).sum
      = (l.map (fun p => p.2.cost)).sum + c := by
  induction l with
  | nil => simp [bumpTeam]
  | cons hd tl ih =>
    obtain ⟨k', s⟩ := hd
    by_cases h : k' = k <;> simp [bumpTeam, h, ih] <;> ring

theorem lookupUser_bumpUser_self (l : List (String × UserStats)) (k : String)
    (it ot : ℤ) (c : ℚ) :
    lookupUser (bumpUser l k it ot c) k
      = some (let s := (lookupUser l k).getD userStatsDefault;
          ⟨s.requests + 1, s.input_tokens + it, s.output_tokens + ot, s.cost + c⟩) := by
  induction l with
  | nil => simp [bumpUser, lookupUser, userStatsDefault]
  | cons hd tl ih =>
    obtain ⟨k', s⟩ := hd
    by_cases h : k' = k <;> simp [bumpUser, lookupUser, h, ih]

theorem lookupUser_bumpUser_ne (l : List (String × UserStats)) (k k' : String)
    (it ot : ℤ) (c : ℚ) (h : k' ≠ k) :
    lookupUser (bumpUser l k it ot c) k' = lookupUser l k' := by
  induction l with
  | nil => simp [bumpUser, lookupUser, Ne.symm h]
  | cons hd tl ih =>
    obtain ⟨k'', s⟩ := hd
    by_cases h2 : k'' = k
    · subst h2
      simp [bumpUser, lookupUser, Ne.symm h]
    · by_cases h3 : k'' = k' <;> simp [bumpUser, lookupUser, h2, h3, h, ih]

theorem sum_cost_foldl_bumpTeam (reqs : List UsageRecord)
    (acc : List (String × TeamStats)) :
    ((reqs.foldl (fun a r => bumpTeam a r.team_id r.cost) acc).map
        (fun p => p.2.cost)).sum
      = (acc.map (fun p => p.2.cost)).sum + (reqs.map UsageRecord.cost).sum := by
  induction reqs generalizing acc with
  | nil => simp
  | cons r tl ih =>
    simp only [List.foldl_cons, List.map_cons, List.sum_cons]
    rw [ih, sum_cost_bumpTeam]
    ring

theorem sum_cost_team_costs (reqs : List UsageRecord) :
    ((team_costs reqs).map (fun p => p.2.cost)).sum
      = (reqs.map UsageRecord.cost).sum := by
  simpa [team_costs] using sum_cost_foldl_bumpTeam reqs []

/-- The inductive invariant of the cost tracker: the running total equals the
sum of record costs and the sum of per-user aggregate costs, and the log length
equals the sum of per-user request counts. -/
def trackerInv (t : CostTracker) : Prop :=
  t.total_cost = (t.requests.map UsageRecord.cost).sum
    ∧ t.total_cost = (t.by_user.map (fun p => p.2.cost)).sum
    ∧ t.requests.length = (t.by_user.map (fun p => p.2.requests)).sum

theorem trackerInv_track_request (t : CostTracker) (ts : ℕ)
    (u tm : Option String) (it ot : ℤ) (c e : ℚ) (h : trackerInv t) :
    trackerInv (track_request t ts u tm it ot c e) := by
  obtain ⟨h1, h2, h3⟩ := h
  refine ⟨?_, ?_, ?_⟩
  · simp [track_request, h1]
  · simp [track_request, sum_cost_bumpUser, h2]
  · simp [track_request, sum_requests_bumpUser, h3]

theorem trackerInv_applyRecords (calls : List RecordCall) (t : CostTracker)
    (h : trackerInv t) : trackerInv (applyRecords t calls) := by
  induction calls generalizing t with
  | nil => simpa [applyRecords] using h
  | cons c tl ih =>
    simpa [applyRecords] using
      ih _ (trackerInv_track_request t c.ts c.user_id c.team_id c.input_tokens
        c.output_tokens c.cost c.elapsed_time h)

theorem trackerInv_empty : trackerInv emptyCostTracker := by
  refine ⟨?_, ?_, ?_⟩ <;> simp [emptyCostTracker]

theorem update_budget_self (L : String → Option Budget) (u : String) (c : ℚ)
    (b : Budget) (h : L u = some b) :
    update_budget L u c u = some ⟨b.limit, b.spent + c, b.team⟩ := by
  simp [update_budget, h]

theorem update_budget_ne (L : String → Option Budget) (u v : String) (c : ℚ)
    (h : v ≠ u) : update_budget L u c v = L v := by
  simp [update_budget, h]

theorem update_budget_unknown (L : String → Option Budget) (u : String) (c : ℚ)
    (h : L u = none) : update_budget L u c = L := by
  funext v
  by_cases hv : v = u
  · simp [update_budget, hv, h]
  · simp [update_budget, hv]

theorem foldl_update_budget (calls : List (String × ℚ))
    (L : String → Option Budget) (u : String) (b : Budget) (h : L u = some b) :
    (calls.foldl (fun B pc => update_budget B pc.1 pc.2) L) u
      = some ⟨b.limit,
          b.spent + ((calls.filter (fun pc => pc.1 == u)).map Prod.snd).sum,
          b.team⟩ := by
  induction calls generalizing L b with
  | nil => simpa using h
  | cons pc tl ih =>
    obtain ⟨p, c⟩ := pc
    by_cases hp : p = u
    · subst hp
      have h' : update_budget L p c p = some ⟨b.limit, b.spent + c, b.team⟩ :=
        update_budget_self L p c b h
      have := ih (update_budget L p c) ⟨b.limit, b.spent + c, b.team⟩ h'
      simp only [List.foldl_cons, this]
      simp [add_assoc]
    · have h' : update_budget L p c u = some b := by
        rw [update_budget_ne L p u c (Ne.symm hp)]; exact h
      have := ih (update_budget L p c) b h'
      simp only [List.foldl_cons, this]
      simp [hp]

theorem spentOf_step (s : SysState) (op : Op) (u : String)
    (h : nonNegCommit op) : spentOf s u ≤ spentOf (step s op) u := by
  cases op with
  | check v e => exact le_refl _
  | commit v c =>
    by_cases hv : u = v
    · subst hv
      cases hb : s.budgets u with
      | none => simp [spentOf, step, update_budget, hb]
      | some b =>
        simp only [spentOf, step, update_budget, if_pos rfl, hb, Option.map_some]
        exact le_add_of_nonneg_right h
    · simp [spentOf, step, update_budget, hv]
  | record ts uid tid it ot c e => exact le_refl _

theorem filter_orderedInsert {α : Type} (key : α → ℚ) (a : α) (s : List α)
    (c : ℚ) :
    (List.orderedInsert (costGe key) a s).filter (fun x => decide (key x = c))
      = if key a = c then a :: s.filter (fun x => decide (key x = c))
        else s.filter (fun x => decide (key x = c)) := by
  induction s with
  | nil =>
    by_cases hc : key a = c <;> simp [List.orderedInsert, List.filter, hc]
  | cons b t ih =>
    simp only [List.orderedInsert]
    by_cases hab : costGe key a b
    · rw [if_pos hab]
      by_cases hc : key a = c <;> simp [List.filter_cons, hc]
    · rw [if_neg hab]
      by_cases hc : key a = c
      · have hkb : key b ≠ c := by
          have hlt : key a < key b := lt_of_not_le hab
          rw [← hc]
          exact ne_of_gt hlt
        simp [List.filter_cons, hkb, ih, hc]
      · simp [List.filter_cons, ih, hc]

theorem filter_insertionSort {α : Type} (key : α → ℚ) (l : List α) (c : ℚ) :
    (List.insertionSort (costGe key) l).filter (fun x => decide (key x = c))
      = l.filter (fun x => decide (key x = c)) := by
  induction l with
  | nil => rfl
  | cons a t ih =>
    simp only [List.insertionSort, filter_orderedInsert, ih]
    by_cases hc : key a = c <;> simp [List.filter_cons, hc]

/-! ## Claim theorems -/

/-- C1: three-way cost conservation.  For every sequence of Record calls, the
incrementally maintained total_cost equals the sum of the cost field over all
recorded UsageRecords, equals the sum of the cost fields over all per-user
(by_user) aggregates, and equals the sum of the cost fields over all per-team
aggregates recomputed from the record sequence. -/
theorem claim1_three_way_cost_conservation (calls : List RecordCall) :
    (applyRecords emptyCostTracker calls).total_cost
        = ((applyRecords emptyCostTracker calls).requests.map UsageRecord.cost).sum
    ∧ (applyRecords emptyCostTracker calls).total_cost
        = ((applyRecords emptyCostTracker calls).by_user.map (fun p => p.2.cost)).sum
    ∧ (applyRecords emptyCostTracker calls).total_cost
        = ((team_costs (applyRecords emptyCostTracker calls).requests).map
            (fun p => p.2.cost)).sum := by
  have h := trackerInv_applyRecords calls emptyCostTracker trackerInv_empty
  exact ⟨h.1, h.2.1, by rw [sum_cost_team_costs]; exact h.1⟩

/-- C2: CheckAdmission decision correctness.  An unknown principal is always
allowed; a known one is allowed iff spent + estimate is at most the limit; a
denial carries a reason built from the principal's limit and current spend; and
a check operation never changes the state. -/
theorem claim2_check_admission_correct (L : String → Option Budget) (u : String)
    (e : ℚ) :
    (L u = none → check_budget L u e = (true, ""))
    ∧ (∀ b, L u = some b →
        (((check_budget L u e).1 = true) ↔ b.spent + e ≤ b.limit)
        ∧ ((check_budget L u e).1 = false →
            (check_budget L u e).2 = budgetReason b.limit b.spent))
    ∧ (∀ s : SysState, step s (Op.check u e) = s) := by
  refine ⟨fun h => by simp [check_budget, h], fun b hb => ⟨?_, ?_⟩, fun s => rfl⟩
  · by_cases hgt : b.limit < b.spent + e
    · simp only [check_budget, hb, gt_iff_lt, if_pos hgt]
      constructor
      · intro hh; exact absurd hh (by simp)
      · intro hle; exact absurd hgt (not_lt.mpr hle)
    · simp only [check_budget, hb, gt_iff_lt, if_neg hgt]
      exact ⟨fun _ => le_of_not_lt hgt, fun _ => by simp⟩
  · intro hfalse
    by_cases hgt : b.limit < b.spent + e
    · simp [check_budget, hb, hgt]
    · simp [check_budget, hb, hgt] at hfalse

/-- C2 witness: an unknown principal is allowed; "charlie" (limit 0.02, spend 0)
is denied an estimate of 0.03, with the reason built from limit and spend. -/
theorem claim2_witness :
    check_budget user_budgets "nobody" 1 = (true, "")
    ∧ (check_budget user_budgets "charlie" (3/100)).1 = false
    ∧ (check_budget user_budgets "charlie" (3/100)).2 = budgetReason (2/100) 0 := by
  have hnb : user_budgets "nobody" = none := by norm_num +decide [user_budgets]
  have hc : user_budgets "charlie" = some ⟨2/100, 0, "product"⟩ := by
    norm_num +decide [user_budgets]
  have h := claim2_check_admission_correct user_budgets "charlie" (3/100)
  have hk := h.2.1 ⟨2/100, 0, "product"⟩ hc
  have hfalse : (check_budget user_budgets "charlie" (3/100)).1 = false := by
    cases hb : (check_budget user_budgets "charlie" (3/100)).1 with
    | false => rfl
    | true =>
      have := hk.1.mp hb
      norm_num at this
  exact ⟨(claim2_check_admission_correct user_budgets "nobody" 1).1 hnb,
    hfalse, hk.2 hfalse⟩

/-- C3: Commit correctness.  When the principal is known, Commit adds exactly
the cost to that principal's spend and leaves every other principal unchanged;
after any sequence of commits the spend is the initial spend plus the sum of
costs committed to that principal; when the principal is unknown, Commit is a
no-op that creates no entry.  It is a total function: it never fails and never
rejects a commit. -/
theorem claim3_commit_correct (L : String → Option Budget) (u : String) (c : ℚ) :
    (∀ b, L u = some b →
        update_budget L u c u = some ⟨b.limit, b.spent + c, b.team⟩)
    ∧ (∀ v, v ≠ u → update_budget L u c v = L v)
    ∧ (L u = none → update_budget L u c = L)
    ∧ (∀ (calls : List (String × ℚ)) (b : Budget), L u = some b →
        (calls.foldl (fun B pc => update_budget B pc.1 pc.2) L) u
          = some ⟨b.limit,
              b.spent + ((calls.filter (fun pc => pc.1 == u)).map Prod.snd).sum,
              b.team⟩) :=
  ⟨fun b hb => update_budget_self L u c b hb,
   fun v hv => update_budget_ne L u v c hv,
   fun h => update_budget_unknown L u c h,
   fun calls b hb => foldl_update_budget calls L u b hb⟩

/-- C3 witness: committing 0.01 to "alice" yields spend 0.01 and leaves "bob"
unchanged; committing to unknown "nobody" is the identity; an interleaved
sequence of commits leaves "alice" with the sum of her commits. -/
theorem claim3_witness :
    update_budget user_budgets "alice" (1/100) "alice"
        = some ⟨5/100, 1/100, "engineering"⟩
    ∧ update_budget user_budgets "alice" (1/100) "bob" = user_budgets "bob"
    ∧ update_budget user_budgets "nobody" 1000 = user_budgets
    ∧ ([("alice", 1/100), ("bob", 1/100), ("alice", 2/100)].foldl
          (fun B pc => update_budget B pc.1 pc.2) user_budgets) "alice"
        = some ⟨5/100, 3/100, "engineering"⟩ := by
  have halice : user_budgets "alice" = some ⟨5/100, 0, "engineering"⟩ := by
    norm_num +decide [user_budgets]
  have hnb : user_budgets "nobody" = none := by norm_num +decide [user_budgets]
  have h := claim3_commit_correct user_budgets "alice" (1/100)
  refine ⟨?_, h.2.1 "bob" (by decide), ?_, ?_⟩
  · have := h.1 ⟨5/100, 0, "engineering"⟩ halice
    simpa using this
  · exact (claim3_commit_correct user_budgets "nobody" 1000).2.2.1 hnb
  · have := h.2.2.2 [("alice", 1/100), ("bob", 1/100), ("alice", 2/100)]
      ⟨5/100, 0, "engineering"⟩ halice
    rw [this]
    norm_num +decide [List.filter_cons, beq_iff_eq]

/-- C8: admission monotonicity.  If a check with estimate e is denied and
e ≤ e', then the check with estimate e' is also denied against the same
ledger. -/
theorem claim8_admission_monotone (L : String → Option Budget) (u : String)
    (e e' : ℚ) (he : e ≤ e') (hd : (check_budget L u e).1 = false) :
    (check_budget L u e').1 = false := by
  cases hb : L u with
  | none => simp [check_budget, hb] at hd
  | some b =>
    by_cases hgt : b.limit < b.spent + e
    · have hgt' : b.limit < b.spent + e' :=
        lt_of_lt_of_le hgt (add_le_add_left he _)
      simp [check_budget, hb, hgt']
    · simp [check_budget, hb, hgt] at hd

/-- C8 witness: "charlie" is denied an estimate of 0.03, so by monotonicity
they are also denied the larger estimate 1. -/
theorem claim8_witness : (check_budget user_budgets "charlie" 1).1 = false :=
  claim8_admission_monotone user_budgets "charlie" (3/100) 1 (by norm_num)
    (by norm_num +decide [check_budget, user_budgets])

/-- C9: an empty-string principal or team identifier is treated exactly like an
absent one: Record behaves identically on `some ""` and `none`, substituting
the sentinels "anonymous" and "none", so both accumulate into the same
aggregate bucket. -/
theorem claim9_empty_string_identifiers (t : CostTracker) (ts : ℕ)
    (u tm : Option String) (it ot : ℤ) (c e : ℚ) :
    track_request t ts (some "") tm it ot c e = track_request t ts none tm it ot c e
    ∧ track_request t ts u (some "") it ot c e = track_request t ts u none it ot c e
    ∧ (track_request t ts none tm it ot c e).requests
        = t.requests ++ [⟨ts, "anonymous", pyOr tm "none", it, ot, c, e⟩]
    ∧ (track_request t ts u none it ot c e).requests
        = t.requests ++ [⟨ts, pyOr u "anonymous", "none", it, ot, c, e⟩]
    ∧ pyOr (some "") "anonymous" = "anonymous" ∧ pyOr none "anonymous" = "anonymous"
    ∧ pyOr (some "") "none" = "none" ∧ pyOr none "none" = "none" := by
  refine ⟨?_, ?_, ?_, ?_, ?_, ?_, ?_, ?_⟩ <;> simp [track_request, pyOr]

/-- C10: request-count conservation.  Every Record call appends exactly one
UsageRecord at the end of the log (existing records untouched), bumps exactly
the recorded principal's aggregate request count by one (all other aggregates
unchanged), and after any sequence of Record calls the per-principal request
counts sum to the log length. -/
theorem claim10_request_count_conservation :
    (∀ (t : CostTracker) (ts : ℕ) (u tm : Option String) (it ot : ℤ) (c e : ℚ),
        (track_request t ts u tm it ot c e).requests
          = t.requests ++ [⟨ts, pyOr u "anonymous", pyOr tm "none", it, ot, c, e⟩])
    ∧ (∀ (t : CostTracker) (ts : ℕ) (u tm : Option String) (it ot : ℤ) (c e : ℚ),
        lookupUser (track_request t ts u tm it ot c e).by_user (pyOr u "anonymous")
          = some (let s := (lookupUser t.by_user (pyOr u "anonymous")).getD userStatsDefault
              ⟨s.requests + 1, s.input_tokens + it, s.output_tokens + ot, s.cost + c⟩))
    ∧ (∀ (t : CostTracker) (ts : ℕ) (u tm : Option String) (it ot : ℤ) (c e : ℚ)
          (k : String), k ≠ pyOr u "anonymous" →
        lookupUser (track_request t ts u tm it ot c e).by_user k
          = lookupUser t.by_user k)
    ∧ (∀ calls : List RecordCall,
        ((applyRecords emptyCostTracker calls).by_user.map
            (fun p => p.2.requests)).sum
          = (applyRecords emptyCostTracker calls).requests.length) := by
  refine ⟨?_, ?_, ?_, ?_⟩
  · intro t ts u tm it ot c e
    simp [track_request]
  · intro t ts u tm it ot c e
    simp [track_request, lookupUser_bumpUser_self]
  · intro t ts u tm it ot c e k hk
    simpa [track_request] using
      lookupUser_bumpUser_ne t.by_user (pyOr u "anonymous") k it ot c hk
  · intro calls
    exact (trackerInv_applyRecords calls emptyCostTracker trackerInv_empty).2.2.symm

/-- C10 witness: recording for "alice" leaves "bob"'s aggregate lookup
unchanged. -/
theorem claim10_witness :
    lookupUser (track_request emptyCostTracker 0 (some "alice") none 1 2 (1/100) 1).by_user "bob"
      = lookupUser emptyCostTracker.by_user "bob" :=
  claim10_request_count_conservation.2.2.1 emptyCostTracker 0 (some "alice")
    none 1 2 (1/100) 1 "bob" (by norm_num +decide [pyOr])

/-- C5: Cost Calculator contract.  For each known provider the result is
input_tokens times the unit input cost plus output_tokens times the unit
output cost for the (provider, model) pricing entry; a model absent from a
known provider's table falls back to that provider's default entry; an unknown
provider fails with UnknownProvider.  The proxy's calculate_cost behaves the
same way for its single-entry table. -/
theorem claim5_cost_calculator (p m : String) (it ot : ℤ) :
    calcCost "anthropic" m it ot
        = Except.ok (it * ANTHROPIC_PRICING.input + ot * ANTHROPIC_PRICING.output)
    ∧ (∀ entry, OPENAI_PRICING.lookup m = some entry →
        calcCost "openai" m it ot = Except.ok (it * entry.input + ot * entry.output))
    ∧ (OPENAI_PRICING.lookup m = none →
        calcCost "openai" m it ot
          = Except.ok (it * ((15/100 : ℚ) / 1000000) + ot * ((60/100 : ℚ) / 1000000)))
    ∧ (∀ entry, GROK_PRICING.lookup m = some entry →
        calcCost "grok" m it ot = Except.ok (it * entry.input + ot * entry.output))
    ∧ (GROK_PRICING.lookup m = none →
        calcCost "grok" m it ot
          = Except.ok (it * ((2 : ℚ) / 1000000) + ot * ((10 : ℚ) / 1000000)))
    ∧ (p ≠ "anthropic" → p ≠ "openai" → p ≠ "grok" →
        calcCost p m it ot = Except.error CalcError.UnknownProvider)
    ∧ (∀ entry, PRICING.lookup m = some entry →
        calculate_cost it ot m = it * entry.input + ot * entry.output)
    ∧ (PRICING.lookup m = none →
        calculate_cost it ot m
          = it * ((80/100 : ℚ) / 1000000) + ot * ((4 : ℚ) / 1000000)) := by
  refine ⟨?_, ?_, ?_, ?_, ?_, ?_, ?_, ?_⟩
  · norm_num +decide [calcCost, calculate_anthropic_cost]
  · intro entry hm
    norm_num +decide [calcCost, calculate_openai_cost, hm]
  · intro hm
    norm_num +decide [calcCost, calculate_openai_cost, hm]
  · intro entry hm
    norm_num +decide [calcCost, calculate_grok_cost, hm]
  · intro hm
    norm_num +decide [calcCost, calculate_grok_cost, hm]
  · intro h1 h2 h3
    simp [calcCost, h1, h2, h3]
  · intro entry hm
    simp [calculate_cost, hm]
  · intro hm
    simp [calculate_cost, hm]

/-- C5 witness: a known (provider, model) pair, a known provider with an
unknown model falling back to its default entry, and an unknown provider
failing with UnknownProvider. -/
theorem claim5_witness :
    calcCost "openai" "gpt-4o-mini" 100 50
        = Except.ok ((100 : ℤ) * ((15/100 : ℚ) / 1000000) + (50 : ℤ) * ((60/100 : ℚ) / 1000000))
    ∧ calcCost "openai" "mystery-model" 100 50
        = Except.ok ((100 : ℤ) * ((15/100 : ℚ) / 1000000) + (50 : ℤ) * ((60/100 : ℚ) / 1000000))
    ∧ calcCost "azure" "gpt-4o-mini" 100 50 = Except.error CalcError.UnknownProvider := by
  have hk : OPENAI_PRICING.lookup "gpt-4o-mini"
      = some ⟨(15/100 : ℚ) / 1000000, (60/100 : ℚ) / 1000000⟩ := by
    norm_num +decide [OPENAI_PRICING, List.lookup, beq_iff_eq]
  have hu : OPENAI_PRICING.lookup "mystery-model" = none := by
    norm_num +decide [OPENAI_PRICING, List.lookup, beq_iff_eq]
  refine ⟨?_, ?_, ?_⟩
  · have := (claim5_cost_calculator "azure" "gpt-4o-mini" 100 50).2.1 _ hk
    simpa using this
  · exact (claim5_cost_calculator "azure" "mystery-model" 100 50).2.2.1 hu
  · exact (claim5_cost_calculator "azure" "gpt-4o-mini" 100 50).2.2.2.2.2.1
      (by decide) (by decide) (by decide)

/-- C4 counterexample: a negative cost is not rejected anywhere.  Committing
-1 to "alice" mutates her ledger entry (no InvalidCost failure exists in the
code), recording cost -1 mutates the running total, and the calculator happily
returns a negative cost for a negative token count. -/
theorem claim4_counterexample :
    update_budget user_budgets "alice" (-1) "alice" ≠ user_budgets "alice"
    ∧ update_budget user_budgets "alice" (-1) "alice"
        = some ⟨5/100, -1, "engineering"⟩
    ∧ (track_request emptyCostTracker 0 none none (-5) (-5) (-1) 0).total_cost = -1
    ∧ calculate_anthropic_cost (-1000000) 0 = -(80/100 : ℚ) := by
  refine ⟨?_, ?_, ?_, ?_⟩ <;>
    norm_num +decide [update_budget, user_budgets, track_request,
      emptyCostTracker, calculate_anthropic_cost, ANTHROPIC_PRICING]

/-- C4 amended: no operation of the core validates cost or token signs.  A
negative cost is accepted without any error: Commit adds it to the principal's
spend (decreasing it) and Record appends a record carrying it and adds it to
the running total; there is no InvalidCost failure path. -/
theorem claim4_negative_costs_accepted (c : ℚ) (hc : c < 0) (it ot : ℤ) :
    (∀ (L : String → Option Budget) (u : String) (b : Budget), L u = some b →
        update_budget L u c u = some ⟨b.limit, b.spent + c, b.team⟩)
    ∧ (∀ (t : CostTracker) (ts : ℕ) (uid tid : Option String) (e : ℚ),
        (track_request t ts uid tid it ot c e).requests
            = t.requests ++ [⟨ts, pyOr uid "anonymous", pyOr tid "none", it, ot, c, e⟩]
        ∧ (track_request t ts uid tid it ot c e).total_cost = t.total_cost + c) := by
  refine ⟨fun L u b hb => update_budget_self L u c b hb, fun t ts uid tid e => ⟨?_, ?_⟩⟩
  · simp [track_request]
  · simp [track_request]

/-- C4 witness for the amended claim, at cost -1 against the source budget
table. -/
theorem claim4_witness :
    update_budget user_budgets "alice" (-1) "alice"
        = some ⟨5/100, 0 + (-1), "engineering"⟩
    ∧ (track_request emptyCostTracker 0 none none 1 1 (-1) 0).total_cost
        = 0 + (-1) := by
  have h := claim4_negative_costs_accepted (-1) (by norm_num) 1 1
  refine ⟨?_, ?_⟩
  · exact h.1 user_budgets "alice" ⟨5/100, 0, "engineering"⟩
      (by norm_num +decide [user_budgets])
  · have := (h.2 emptyCostTracker 0 none none 0).2
    simpa [emptyCostTracker] using this

/-- C7 counterexample: spend is not monotone over arbitrary operation
sequences, because a Commit with a negative cost (never rejected by the code)
decreases it. -/
theorem claim7_counterexample :
    spentOf (step state0 (Op.commit "alice" (-1/100))) "alice"
      < spentOf state0 "alice" := by
  norm_num +decide [spentOf, step, state0, update_budget, user_budgets]

/-- C7 amended: for every principal, cumulative spend is monotonically
non-decreasing across every sequence of core operations in which each Commit's
cost is non-negative (checks and records never touch the ledger; the code
itself never rejects a negative cost). -/
theorem claim7_spend_monotone (ops : List Op) (h : ∀ op ∈ ops, nonNegCommit op)
    (s : SysState) (u : String) : spentOf s u ≤ spentOf (runOps s ops) u := by
  revert h
  induction ops generalizing s with
  | nil =>
    intro h
    simp [runOps]
  | cons op tl ih =>
    intro h
    have h1 : nonNegCommit op := h op (List.mem_cons_self op tl)
    have h2 : ∀ o ∈ tl, nonNegCommit o := fun o ho => h o (List.mem_cons_of_mem op ho)
    have := le_trans (spentOf_step s op u h1) (ih (step s op) h2)
    simpa [runOps] using this

/-- C7 witness: a check, a non-negative commit and a record leave "alice"'s
spend no lower than before. -/
theorem claim7_witness :
    spentOf state0 "alice"
      ≤ spentOf (runOps state0
          [Op.check "alice" 1, Op.commit "alice" (1/100),
           Op.record 0 none none 1 1 (1/100) 1]) "alice" :=
  claim7_spend_monotone
    [Op.check "alice" 1, Op.commit "alice" (1/100),
     Op.record 0 none none 1 1 (1/100) 1]
    (by intro op hop
        simp only [List.mem_cons, List.not_mem_nil, or_false] at hop
        rcases hop with h | h | h <;> subst h <;> norm_num [nonNegCommit])
    state0 "alice"

/-- C6 counterexample: the chargeback tables are sorted by Python's stable
sort, so ties keep first-insertion order rather than identifier-ascending
order.  For the Scenario C records the per-team table is [engineering,
marketing], not the claimed [marketing, engineering]; and for two equal-cost
users inserted as "bob" then "alice" the per-user table keeps "bob" first,
not identifier order. -/
theorem claim6_counterexample :
    (sorted_teams scenarioC_tracker).map Prod.fst ≠ ["marketing", "engineering"]
    ∧ (sorted_teams scenarioC_tracker).map Prod.fst = ["engineering", "marketing"]
    ∧ (sorted_users tieTracker).map Prod.fst = ["bob", "alice"]
    ∧ (sorted_users tieTracker).map Prod.fst ≠ ["alice", "bob"] := by
  refine ⟨?_, ?_, ?_, ?_⟩ <;>
    norm_num +decide [sorted_teams, sorted_users, scenarioC_tracker, tieTracker,
      team_costs, applyRecords, track_request, bumpTeam, bumpUser, pyOr,
      emptyCostTracker, List.insertionSort, List.orderedInsert, costGe,
      teamCost, userCost]

/-- C6 amended: PerPrincipal and PerTeam are ordered by descending aggregate
cost; ties between equal costs keep the order of first insertion (the sort is
stable), not identifier-ascending order.  Each sorted table is a permutation
of the underlying aggregate table, and for every cost value the equal-cost
entries appear in their original order.  For the Scenario C records, PerTeam
returns engineering (requests=2, cost=0.03) before marketing (requests=1,
cost=0.03). -/
theorem claim6_chargeback_ordering (t : CostTracker) (c : ℚ) :
    List.Sorted (costGe userCost) (sorted_users t)
    ∧ (sorted_users t).Perm t.by_user
    ∧ (sorted_users t).filter (fun x => decide (userCost x = c))
        = t.by_user.filter (fun x => decide (userCost x = c))
    ∧ List.Sorted (costGe teamCost) (sorted_teams t)
    ∧ (sorted_teams t).Perm (team_costs t.requests)
    ∧ (sorted_teams t).filter (fun x => decide (teamCost x = c))
        = (team_costs t.requests).filter (fun x => decide (teamCost x = c))
    ∧ sorted_teams scenarioC_tracker
        = [("engineering", ⟨3/100, 2⟩), ("marketing", ⟨3/100, 1⟩)] := by
  refine ⟨List.sorted_insertionSort _ _, List.perm_insertionSort _ _,
    filter_insertionSort _ _ _, List.sorted_insertionSort _ _,
    List.perm_insertionSort _ _, filter_insertionSort _ _ _, ?_⟩
  norm_num +decide [sorted_teams, scenarioC_tracker, team_costs, applyRecords,
    track_request, bumpTeam, pyOr, emptyCostTracker, List.insertionSort,
    List.orderedInsert, costGe, teamCost]

end AG
